import Mathlib

/-!
# Verification of the terralense registry client core

This file gives a shallow embedding, in Lean 4, of the algorithmic core of the
`terralense-registry-client` Go repository (version comparison and validation,
identifier parsing, token-bucket rate limiting, the retrying HTTP transport,
relevance ranking, and paginated search traversal), together with theorems
settling the specification claims about those components.

Modelling conventions, used throughout:

* Go strings are Lean `String`s; the byte-level operations of the Go standard
  library (`strings.Split`, `strings.TrimSpace`, `strings.Contains`, ...) are
  re-implemented structurally on `List Char`.  All character classes involved
  are ASCII, where Go's byte-wise treatment and Lean's `Char`-wise treatment
  agree.
* Go `int` / `int64` values are `ℤ` (or `ℕ` where the source guarantees
  non-negativity); Go `float64` arithmetic is modelled as exact arithmetic in
  `ℚ`.  Where a float-to-int truncation matters the model notes it locally.
* `time.Time` / `time.Duration` values are rational timestamps passed in
  explicitly ("now" parameters), since the Go code computes all timing lazily
  from `time.Now()`.
-/

/-! ## Character and string helpers (Go `strings` package operations) -/

/-- The character class of Go's `unicode.IsSpace` restricted to Latin-1
(`'\t'`, `'\n'`, `'\v'`, `'\f'`, `'\r'`, `' '`, U+0085, U+00A0).  Higher
Unicode space code points are irrelevant to every string this development
touches. -/
def goIsSpace (c : Char) : Bool :=
  c = ' ' || c = '\t' || c = '\n' || c = Char.ofNat 11 || c = Char.ofNat 12 ||
  c = '\r' || c = Char.ofNat 0x85 || c = Char.ofNat 0xA0

/-- Drop leading whitespace characters. -/
def trimLeading : List Char → List Char
  | [] => []
  | c :: r => if goIsSpace c then trimLeading r else c :: r

/-- Go `strings.TrimSpace`: drop leading and trailing whitespace. -/
def goTrimSpace (s : String) : String :=
  String.mk ((trimLeading ((trimLeading s.data).reverse)).reverse)

/-- Go `strings.Split(s, "/")` on the underlying character list: split at every
`'/'`; the result always has one more element than the number of slashes. -/
def splitOnSlash : List Char → List (List Char)
  | [] => [[]]
  | c :: r =>
    if c = '/' then [] :: splitOnSlash r
    else
      match splitOnSlash r with
      | h :: t => (c :: h) :: t
      | [] => [[c]]

/-- Go `strings.Contains(hay, needle)`: `needle` occurs as a contiguous
substring of `hay` (every string contains the empty string). -/
def listContainsSub (hay needle : List Char) : Bool :=
  if needle.isPrefixOf hay then true
  else
    match hay with
    | [] => false
    | _ :: t => listContainsSub t needle

/-- `strings.Contains` on `String`. -/
def containsStr (s sub : String) : Bool :=
  listContainsSub s.data sub.data

/-- Go `strings.ToLower`, ASCII fragment (all inputs in this development are
ASCII). -/
def toLowerStr (s : String) : String :=
  String.mk (s.data.map Char.toLower)

/-- Accumulator-based splitting of a character list into maximal runs of
non-whitespace characters (`cur` holds the current run, reversed). -/
def fieldsAux : List Char → List Char → List (List Char)
  | [], cur => if cur.isEmpty then [] else [cur.reverse]
  | c :: r, cur =>
    if goIsSpace c then
      if cur.isEmpty then fieldsAux r [] else cur.reverse :: fieldsAux r []
    else fieldsAux r (c :: cur)

/-- Go `strings.Fields`: the whitespace-separated words of a string. -/
def fieldsStr (s : String) : List String :=
  (fieldsAux s.data []).map String.mk

/-- Go byte-wise string comparison `s < t` (lexicographic; on the ASCII data
handled here byte order and `Char` order agree). -/
def lexLt : List Char → List Char → Bool
  | [], [] => false
  | [], _ :: _ => true
  | _ :: _, [] => false
  | a :: as_, b :: bs => if a < b then true else if b < a then false else lexLt as_ bs

/-! ## VersionComparator (src/unnamed/part_005)

The semantic-version regular expression of the source,

  `^v?(\d+)\.(\d+)\.(\d+)(?:-([a-zA-Z0-9\-\.]+))?(?:\+([a-zA-Z0-9\-\.]+))?$`,

is embedded as a deterministic parser.  Determinism is faithful: each
committed step of the parser is forced, because the character that triggers a
group (`'v'`, a digit, `'-'`, `'+'`) can never be consumed by any later part
of the pattern (digits only follow `'.'` separators, and the prerelease/build
character class excludes `'+'` while `'$'` requires the end), so the
backtracking regex engine and this parser accept exactly the same strings with
the same capture groups. -/

/-- The character class `[a-zA-Z0-9\-\.]` of the prerelease and build-metadata
groups. -/
def isSemverTagChar (c : Char) : Bool :=
  c.isAlpha || c.isDigit || c = '-' || c = '.'

/-- Strip one leading `'v'` if present (the `^v?` of the pattern, and also Go
`strings.TrimPrefix(version, "v")` in `NormalizeVersion`). -/
def dropLeadingV : List Char → List Char
  | 'v' :: r => r
  | cs => cs

/-- Match an optional `(?:X([a-zA-Z0-9\-\.]+))?` group led by character
`lead` (`'-'` for prerelease, `'+'` for build metadata): if the lead character
is present the group must capture at least one tag character. -/
def matchTagGroup (lead : Char) (cs : List Char) : Option (List Char × List Char) :=
  match cs with
  | [] => some ([], [])
  | c :: r =>
    if c = lead then
      let p := r.span isSemverTagChar
      if p.1.isEmpty then none else some (p.1, p.2)
    else some ([], c :: r)

/-- `semverRegex.FindStringSubmatch`: on success, the five capture groups
(major digits, minor digits, patch digits, prerelease, build metadata), the
optional groups being `[]` when absent; `none` when the string does not match
the pattern. -/
def semverFindSubmatch (s : String) : Option (List Char × List Char × List Char × List Char × List Char) :=
  let cs := dropLeadingV s.data
  let m1 := cs.span Char.isDigit
  if m1.1.isEmpty then none
  else
    match m1.2 with
    | '.' :: r2 =>
      let m2 := r2.span Char.isDigit
      if m2.1.isEmpty then none
      else
        match m2.2 with
        | '.' :: r4 =>
          let m3 := r4.span Char.isDigit
          if m3.1.isEmpty then none
          else
            match matchTagGroup '-' m3.2 with
            | none => none
            | some (g4, r6) =>
              match matchTagGroup '+' r6 with
              | none => none
              | some (g5, r7) =>
                if r7.isEmpty then some (m1.1, m2.1, m3.1, g4, g5) else none
        | _ => none
    | _ => none

/-- Numeric value of a digit string. -/
def digitsToNat (ds : List Char) : ℕ :=
  ds.foldl (fun n c => n * 10 + (c.toNat - '0'.toNat)) 0

/-- Go `strconv.Atoi` as used on the (all-digit) capture groups: the parsed
value, clamped to the largest `int64` (on range overflow `Atoi` reports an
error, which the source ignores, and returns the clamped value). -/
def goAtoi (ds : List Char) : ℕ :=
  min (digitsToNat ds) (2 ^ 63 - 1)

/-- `NormalizeVersion`: remove the `'v'` prefix from version strings if
present. -/
def NormalizeVersion (version : String) : String :=
  String.mk (dropLeadingV version.data)

/-- `parseSemanticVersion`: major, minor, patch of a version string, or
`(0, 0, 0)` when the string does not match the semver pattern. -/
def parseSemanticVersion (version : String) : ℕ × ℕ × ℕ :=
  match semverFindSubmatch version with
  | some (g1, g2, g3, _, _) => (goAtoi g1, goAtoi g2, goAtoi g3)
  | none => (0, 0, 0)

/-- `extractPreRelease`: the prerelease capture group of a version string, or
`""` when the string does not match. -/
def extractPreRelease (version : String) : String :=
  match semverFindSubmatch version with
  | some (_, _, _, g4, _) => String.mk g4
  | none => ""

/-- `CompareVersions`: `-1` if `v1 < v2`, `0` if equal, `1` if `v1 > v2`;
major, minor and patch numerically, then no-prerelease beats prerelease, then
plain lexical comparison of the prerelease strings. -/
def CompareVersions (v1 v2 : String) : ℤ :=
  let v1n := NormalizeVersion v1
  let v2n := NormalizeVersion v2
  let p1 := parseSemanticVersion v1n
  let p2 := parseSemanticVersion v2n
  if p1.1 < p2.1 then -1
  else if p2.1 < p1.1 then 1
  else if p1.2.1 < p2.2.1 then -1
  else if p2.2.1 < p1.2.1 then 1
  else if p1.2.2 < p2.2.2 then -1
  else if p2.2.2 < p1.2.2 then 1
  else
    let v1Pre := extractPreRelease v1n
    let v2Pre := extractPreRelease v2n
    if v1Pre = "" ∧ v2Pre ≠ "" then 1
    else if v1Pre ≠ "" ∧ v2Pre = "" then -1
    else if lexLt v1Pre.data v2Pre.data then -1
    else if lexLt v2Pre.data v1Pre.data then 1
    else 0

/-- `ValidateProviderVersion` (the spec's `ValidateVersion`): `true` when the
source returns a nil error.  The empty string and `"latest"` are accepted as
sentinels; every other string must match the semver pattern. -/
def ValidateProviderVersion (version : String) : Bool :=
  if version = "" ∨ version = "latest" then true
  else (semverFindSubmatch version).isSome

/-! ### The specification's description of `Compare`

`specCompare` is written from the specification's words ("numerically compare
major, then minor, then patch; on full equality, a version with no prerelease
tag is greater than one with a prerelease tag; if both have (or both lack) a
prerelease tag, compare the prerelease strings using plain lexical ordering;
build metadata never participates in ordering"), over the comparison key of a
version string: its parsed numeric triple and its prerelease tag — the build
metadata group is deliberately absent from the key. -/

/-- The data `Compare` may depend on according to the spec: numeric triple and
prerelease tag (no build metadata). -/
def specVersionKey (v : String) : (ℕ × ℕ × ℕ) × String :=
  (parseSemanticVersion (NormalizeVersion v), extractPreRelease (NormalizeVersion v))

/-- Three-way numeric comparison. -/
def specCompareInt (x y : ℕ) : ℤ :=
  if x < y then -1 else if y < x then 1 else 0

/-- Three-way plain lexical comparison of strings. -/
def specCompareLex (s t : String) : ℤ :=
  if lexLt s.data t.data then -1 else if lexLt t.data s.data then 1 else 0

/-- The ordering described by the spec for `Compare`. -/
def specCompare (a b : String) : ℤ :=
  let ka := specVersionKey a
  let kb := specVersionKey b
  if specCompareInt ka.1.1 kb.1.1 ≠ 0 then specCompareInt ka.1.1 kb.1.1
  else if specCompareInt ka.1.2.1 kb.1.2.1 ≠ 0 then specCompareInt ka.1.2.1 kb.1.2.1
  else if specCompareInt ka.1.2.2 kb.1.2.2 ≠ 0 then specCompareInt ka.1.2.2 kb.1.2.2
  else if ka.2 = "" ∧ kb.2 ≠ "" then 1
  else if ka.2 ≠ "" ∧ kb.2 = "" then -1
  else specCompareLex ka.2 kb.2

theorem specCompareInt_lt {x y : ℕ} (h : x < y) : specCompareInt x y = -1 := by
  simp [specCompareInt, h]

theorem specCompareInt_gt {x y : ℕ} (h : y < x) : specCompareInt x y = 1 := by
  have h2 : ¬ x < y := by omega
  simp [specCompareInt, h, h2]

theorem specCompareInt_eq {x y : ℕ} (h : x = y) : specCompareInt x y = 0 := by
  simp [specCompareInt, h]

theorem specCompareInt_self (x : ℕ) : specCompareInt x x = 0 := by
  simp [specCompareInt]

/-- The source's `CompareVersions` implements exactly the ordering described by
the spec (and therefore factors through `specVersionKey`: build metadata never
affects the result). -/
theorem compareVersions_eq_specCompare (a b : String) :
    CompareVersions a b = specCompare a b := by
  unfold CompareVersions specCompare specVersionKey
  rcases lt_trichotomy (parseSemanticVersion (NormalizeVersion a)).1
      (parseSemanticVersion (NormalizeVersion b)).1 with h1 | h1 | h1
  · simp [h1, specCompareInt_lt h1, specCompareInt_self]
  · rcases lt_trichotomy (parseSemanticVersion (NormalizeVersion a)).2.1
        (parseSemanticVersion (NormalizeVersion b)).2.1 with h2 | h2 | h2
    · simp [h1, h2, specCompareInt_lt h2, specCompareInt_self]
    · rcases lt_trichotomy (parseSemanticVersion (NormalizeVersion a)).2.2
          (parseSemanticVersion (NormalizeVersion b)).2.2 with h3 | h3 | h3
      · simp [h1, h2, h3, specCompareInt_lt h3, specCompareInt_self]
      · simp [h1, h2, h3, specCompareInt_self, specCompareLex]
      · have h3' : ¬ (parseSemanticVersion (NormalizeVersion a)).2.2 <
            (parseSemanticVersion (NormalizeVersion b)).2.2 := by omega
        simp [h1, h2, h3, h3', specCompareInt_gt h3, specCompareInt_self]
    · have h2' : ¬ (parseSemanticVersion (NormalizeVersion a)).2.1 <
          (parseSemanticVersion (NormalizeVersion b)).2.1 := by omega
      simp [h1, h2, h2', specCompareInt_gt h2, specCompareInt_self]
  · have h1' : ¬ (parseSemanticVersion (NormalizeVersion a)).1 <
        (parseSemanticVersion (NormalizeVersion b)).1 := by omega
    simp [h1, h1', specCompareInt_gt h1]

/-! ## IdentifierParser (src/unnamed/part_005, `ParseModuleID`) -/

/-- ASCII `[a-zA-Z0-9]`. -/
def isAsciiAlnum (c : Char) : Bool :=
  c.isAlpha || c.isDigit

/-- `validNamePattern` = `^[a-zA-Z0-9][a-zA-Z0-9\-_]*$`. -/
def validNamePattern (s : String) : Bool :=
  match s.data with
  | [] => false
  | c :: rest =>
    isAsciiAlnum c && rest.all (fun d => isAsciiAlnum d || d = '-' || d = '_')

/-- `validProviderPattern` = `^[a-z][a-z0-9\-]*$`. -/
def validProviderPattern (s : String) : Bool :=
  match s.data with
  | [] => false
  | c :: rest =>
    (c.isLower && c.isAlpha) &&
      rest.all (fun d => (d.isLower && d.isAlpha) || d.isDigit || d = '-')

/-- The distinct failure causes of `ParseModuleID`, one per `fmt.Errorf` site
of the source. -/
inductive ModuleIDError where
  /-- "module ID cannot be empty" -/
  | emptyID : ModuleIDError
  /-- "invalid module ID format: ..., expected namespace/name/provider/version" -/
  | wrongSegmentCount : ModuleIDError
  /-- "module ID components cannot be empty: ..." -/
  | emptyComponent : ModuleIDError
  /-- "invalid namespace format: ..." -/
  | invalidNamespace : ModuleIDError
  /-- "invalid module name format: ..." -/
  | invalidName : ModuleIDError
  /-- "invalid provider format: ..." -/
  | invalidProvider : ModuleIDError
  /-- "invalid semantic version format: ..." -/
  | invalidVersion : ModuleIDError
deriving DecidableEq

deriving instance DecidableEq for Except

/-- `ParseModuleID`: split on `'/'` into exactly four segments, trim each with
`strings.TrimSpace`, require all four trimmed components non-empty, then
validate namespace and name against `validNamePattern`, provider against
`validProviderPattern`, and version with `ValidateProviderVersion`. -/
def ParseModuleID (moduleID : String) :
    Except ModuleIDError (String × String × String × String) :=
  if moduleID = "" then .error .emptyID
  else
    match splitOnSlash moduleID.data with
    | [p0, p1, p2, p3] =>
      let nspace := goTrimSpace (String.mk p0)
      let nm := goTrimSpace (String.mk p1)
      let prov := goTrimSpace (String.mk p2)
      let ver := goTrimSpace (String.mk p3)
      if nspace = "" ∨ nm = "" ∨ prov = "" ∨ ver = "" then .error .emptyComponent
      else if ¬ validNamePattern nspace then .error .invalidNamespace
      else if ¬ validNamePattern nm then .error .invalidName
      else if ¬ validProviderPattern prov then .error .invalidProvider
      else if ¬ ValidateProviderVersion ver then .error .invalidVersion
      else .ok (nspace, nm, prov, ver)
    | _ => .error .wrongSegmentCount

/-- The acceptance criterion asserted by the claim, word for word: the input
splits into four non-empty slash-delimited segments, and each raw segment (as
split, before any trimming) passes its per-segment grammar.  (Both grammars
imply non-emptiness; the version segment additionally must be non-empty since
`ValidateProviderVersion` accepts `""` as a sentinel.) -/
def moduleIDClaimCriterion (moduleID : String) : Bool :=
  match splitOnSlash moduleID.data with
  | [p0, p1, p2, p3] =>
    validNamePattern (String.mk p0) &&
    validNamePattern (String.mk p1) &&
    validProviderPattern (String.mk p2) &&
    !(String.mk p3 = "") && ValidateProviderVersion (String.mk p3)
  | _ => false

/-- What `ParseModuleID` actually accepts: the same criterion applied to the
whitespace-trimmed segments. -/
def moduleIDTrimmedCriterion (moduleID : String) : Bool :=
  match splitOnSlash moduleID.data with
  | [p0, p1, p2, p3] =>
    validNamePattern (goTrimSpace (String.mk p0)) &&
    validNamePattern (goTrimSpace (String.mk p1)) &&
    validProviderPattern (goTrimSpace (String.mk p2)) &&
    !(goTrimSpace (String.mk p3) = "") &&
    ValidateProviderVersion (goTrimSpace (String.mk p3))
  | _ => false

theorem validNamePattern_empty : validNamePattern "" = false := rfl

theorem validProviderPattern_empty : validProviderPattern "" = false := rfl

/-- `ParseModuleID` succeeds exactly on the inputs passing the trimmed-segment
criterion. -/
theorem parseModuleID_isOk_eq (moduleID : String) :
    (ParseModuleID moduleID).isOk = moduleIDTrimmedCriterion moduleID := by
  unfold ParseModuleID moduleIDTrimmedCriterion
  by_cases h0 : moduleID = ""
  · subst h0
    rfl
  · simp only [if_neg h0]
    rcases hsplit : splitOnSlash moduleID.data with _ | ⟨p0, _ | ⟨p1, _ | ⟨p2, _ | ⟨p3, _ | ⟨p4, t4⟩⟩⟩⟩⟩ <;>
      simp only [hsplit] <;> try rfl
    by_cases he : goTrimSpace (String.mk p0) = "" ∨ goTrimSpace (String.mk p1) = "" ∨
        goTrimSpace (String.mk p2) = "" ∨ goTrimSpace (String.mk p3) = ""
    · rw [if_pos he]
      rcases he with ha | hb | hc | hd
      · simp [Except.isOk, Except.toBool, ha, validNamePattern_empty]
      · simp [Except.isOk, Except.toBool, hb, validNamePattern_empty]
      · simp [Except.isOk, Except.toBool, hc, validProviderPattern_empty]
      · simp [Except.isOk, Except.toBool, hd]
    · rw [if_neg he]
      push_neg at he
      obtain ⟨h1, h2, h3, h4⟩ := he
      by_cases hv0 : validNamePattern (goTrimSpace (String.mk p0))
      · by_cases hv1 : validNamePattern (goTrimSpace (String.mk p1))
        · by_cases hv2 : validProviderPattern (goTrimSpace (String.mk p2))
          · by_cases hv3 : ValidateProviderVersion (goTrimSpace (String.mk p3))
            · simp [Except.isOk, Except.toBool, hv0, hv1, hv2, hv3, h4]
            · simp [Except.isOk, Except.toBool, hv0, hv1, hv2, hv3]
          · simp [Except.isOk, Except.toBool, hv0, hv1, hv2]
        · simp [Except.isOk, Except.toBool, hv0, hv1]
      · simp [Except.isOk, Except.toBool, hv0]

/-! ## RateLimiter (src/registry/ratelimiter.go)

The bucket state is the record of mutable fields of the Go `RateLimiter`
struct.  Timestamps and durations are integers (nanoseconds); each operation
receives the `time.Now()` it observes as an explicit argument.  The float64
product `float64(refillRate) * (float64(elapsed) / float64(refillPeriod))`
truncated by `int(...)` is modelled as exact integer multiplication followed by
truncating division — the rounding error of the float computation can shift
`tokensToAdd` by at most one, which no theorem below depends on. -/

structure RateLimiterState where
  tokens : ℤ
  maxTokens : ℤ
  refillRate : ℤ
  refillPeriod : ℤ
  lastRefill : ℤ
deriving DecidableEq

/-- `NewRateLimiter`: full bucket, refill rate equal to the capacity. -/
def NewRateLimiter (maxRequests : ℤ) (period : ℤ) (now : ℤ) : RateLimiterState :=
  { tokens := maxRequests
    maxTokens := maxRequests
    refillRate := maxRequests
    refillPeriod := period
    lastRefill := now }

/-- `refill`: full refill after a whole period, otherwise add the tokens
accrued pro rata (when positive), clamped at `maxTokens`. -/
def refill (now : ℤ) (r : RateLimiterState) : RateLimiterState :=
  if r.refillPeriod ≤ now - r.lastRefill then
    { r with tokens := r.maxTokens, lastRefill := now }
  else if 0 < r.refillRate * (now - r.lastRefill) / r.refillPeriod then
    { r with
        tokens := min (r.tokens + r.refillRate * (now - r.lastRefill) / r.refillPeriod) r.maxTokens
        lastRefill := now }
  else r

/-- `TryAcquire`: refill, then consume one token iff any is available. -/
def tryAcquire (now : ℤ) (r : RateLimiterState) : Bool × RateLimiterState :=
  if 0 < (refill now r).tokens then
    (true, { refill now r with tokens := (refill now r).tokens - 1 })
  else (false, refill now r)

/-- `Reset`: back to full capacity. -/
def resetLimiter (now : ℤ) (r : RateLimiterState) : RateLimiterState :=
  { r with tokens := r.maxTokens, lastRefill := now }

/-- `TokensRemaining`: refill, then read the count. -/
def tokensRemaining (now : ℤ) (r : RateLimiterState) : ℤ × RateLimiterState :=
  ((refill now r).tokens, refill now r)

/-- One externally visible operation on the limiter.  `Wait` loops over
`TryAcquire` until one succeeds or the context is cancelled, so its effect on
the bucket state is that of the sequence of `TryAcquire` calls it makes, one
per observed timestamp. -/
inductive LimiterOp where
  | tryAcq (now : ℤ) : LimiterOp
  | wait (nows : List ℤ) : LimiterOp
  | reset (now : ℤ) : LimiterOp
  | remaining (now : ℤ) : LimiterOp

/-- State effect of one operation. -/
def applyLimiterOp (r : RateLimiterState) : LimiterOp → RateLimiterState
  | .tryAcq now => (tryAcquire now r).2
  | .wait nows => nows.foldl (fun s t => (tryAcquire t s).2) r
  | .reset now => resetLimiter now r
  | .remaining now => (tokensRemaining now r).2

/-- State after running a finite sequence of operations. -/
def runLimiterOps (r : RateLimiterState) (ops : List LimiterOp) : RateLimiterState :=
  ops.foldl applyLimiterOp r

/-- The claimed bucket invariant. -/
def TokenInvariant (r : RateLimiterState) : Prop :=
  0 ≤ r.tokens ∧ r.tokens ≤ r.maxTokens

theorem refill_invariant {r : RateLimiterState} (h : TokenInvariant r) (now : ℤ) :
    TokenInvariant (refill now r) := by
  obtain ⟨h0, h1⟩ := h
  have hmax : 0 ≤ r.maxTokens := le_trans h0 h1
  unfold refill TokenInvariant
  split_ifs with hfull hadd
  · exact ⟨hmax, le_refl _⟩
  · constructor
    · simp only [le_min_iff]
      omega
    · exact min_le_right _ _
  · exact ⟨h0, h1⟩

theorem tryAcquire_invariant {r : RateLimiterState} (h : TokenInvariant r) (now : ℤ) :
    TokenInvariant (tryAcquire now r).2 := by
  have h2 := refill_invariant h now
  obtain ⟨h0, h1⟩ := h2
  unfold tryAcquire TokenInvariant
  split_ifs with hpos
  · refine ⟨?_, ?_⟩ <;> simp only [Prod.snd] <;> omega
  · exact ⟨h0, h1⟩

theorem applyLimiterOp_invariant {r : RateLimiterState} (h : TokenInvariant r)
    (op : LimiterOp) : TokenInvariant (applyLimiterOp r op) := by
  cases op with
  | tryAcq now => exact tryAcquire_invariant h now
  | wait nows =>
    induction nows generalizing r with
    | nil => exact h
    | cons t ts ih =>
      exact ih (tryAcquire_invariant h t)
  | reset now =>
    obtain ⟨h0, h1⟩ := h
    exact ⟨le_trans h0 h1, le_refl _⟩
  | remaining now => exact refill_invariant h now

theorem runLimiterOps_invariant {r : RateLimiterState} (h : TokenInvariant r)
    (ops : List LimiterOp) : TokenInvariant (runLimiterOps r ops) := by
  induction ops generalizing r with
  | nil => exact h
  | cons op ops ih => exact ih (applyLimiterOp_invariant h op)

/-! ## ResilientTransport (src/registry/client.go)

`Client.request` acquires from the rate limiter once (`c.rateLimiter.Wait(ctx)`,
line 300), builds the request and hands it to `c.do`, whose single
`c.httpClient.Do(req)` call runs the whole retry loop of the configured
`retryablehttp` client (lines 236–290).  One call is therefore modelled by:
a possibly-cancelled `Wait`, followed — on success — by the retry loop, which
consults the custom `CheckRetry` closure after every attempt and never touches
the rate limiter.

A scenario assigns to every attempt index the outcome the network would
produce for it: either a transport-level error (`err != nil`) or an HTTP
response with its status code. -/

/-- The outcome of one HTTP attempt. -/
inductive AttemptOutcome where
  | netErr : AttemptOutcome
  | status (code : ℕ) : AttemptOutcome
deriving DecidableEq

/-- The error-free branch of `retryablehttp.DefaultRetryPolicy`'s
`baseRetryPolicy` (vendored dependency, modelled from its source): retry on
429, on status 0, and on 5xx other than 501. -/
def baseRetryPolicyStatus (code : ℕ) : Bool :=
  if code = 429 then true
  else if code = 0 ∨ (500 ≤ code ∧ code ≠ 501) then true
  else false

/-- `retryablehttp.DefaultRetryPolicy` on an error-free response: no retry
once the context is done, otherwise `baseRetryPolicyStatus`. -/
def defaultRetryPolicyStatus (ctxDone : Bool) (code : ℕ) : Bool :=
  if ctxDone then false else baseRetryPolicyStatus code

/-- The custom `CheckRetry` closure installed by `newDefaultHTTPClient`
(lines 269–287): always retry on a network error; retry on 429 and on any
status ≥ 500; defer every other case to `DefaultRetryPolicy`. -/
def checkRetry (ctxDone : Bool) : AttemptOutcome → Bool
  | .netErr => true
  | .status code =>
    if code = 429 then true
    else if 500 ≤ code then true
    else defaultRetryPolicyStatus ctxDone code

/-- Number of attempts performed by the `retryablehttp` retry loop starting at
attempt index `i` with `remain` retries still allowed (`remain` starts at
`RetryMax`; the loop stops at the first non-retryable outcome, or when the
retry budget is exhausted). -/
def attemptsFrom (ctxDone : Bool) (scenario : ℕ → AttemptOutcome) (i : ℕ) :
    ℕ → ℕ
  | 0 => 1
  | remain + 1 =>
    if checkRetry ctxDone (scenario i) then
      1 + attemptsFrom ctxDone scenario (i + 1) remain
    else 1

/-- Total number of attempts of one `httpClient.Do` call with `RetryMax =
retryMax`. -/
def doAttempts (ctxDone : Bool) (scenario : ℕ → AttemptOutcome) (retryMax : ℕ) : ℕ :=
  attemptsFrom ctxDone scenario 0 retryMax

/-- The externally observable events of one `Client.request` call, in order:
rate-limiter acquisitions and HTTP attempts. -/
inductive ReqEvent where
  | waitAcquired : ReqEvent
  | httpAttempt (idx : ℕ) : ReqEvent
deriving DecidableEq

/-- `Client.request`: if the rate limiter `Wait` is cancelled the call returns
the wrapped cancellation error at once, producing no events (second component
`true`); otherwise one `waitAcquired` event is followed by the attempts of the
retry loop (numbered from 1). -/
def clientRequest (cancelled ctxDone : Bool) (scenario : ℕ → AttemptOutcome)
    (retryMax : ℕ) : List ReqEvent × Bool :=
  if cancelled then ([], true)
  else
    (ReqEvent.waitAcquired ::
      (List.range (doAttempts ctxDone scenario retryMax)).map
        (fun k => ReqEvent.httpAttempt (k + 1)),
      false)

/-- Count of HTTP attempts in an event list. -/
def countAttempts (evs : List ReqEvent) : ℕ :=
  evs.countP (fun e => match e with | .httpAttempt _ => true | _ => false)

/-- Count of rate-limiter acquisitions in an event list. -/
def countWaits (evs : List ReqEvent) : ℕ :=
  evs.count ReqEvent.waitAcquired

/-- Claim C1, as stated: on every call, every attempt (initial and retries) is
covered by its own rate-limiter acquisition, and a cancelled `Wait` means an
immediate cancellation error with no attempt. -/
def claimC1Statement : Prop :=
  ∀ (cancelled ctxDone : Bool) (scenario : ℕ → AttemptOutcome) (retryMax : ℕ),
    countAttempts (clientRequest cancelled ctxDone scenario retryMax).1 ≤
      countWaits (clientRequest cancelled ctxDone scenario retryMax).1 ∧
    (cancelled = true → clientRequest cancelled ctxDone scenario retryMax = ([], true))

/-- The first-500-then-200 scenario. -/
def oneServerErrorScenario : ℕ → AttemptOutcome :=
  fun i => if i = 0 then .status 500 else .status 200

/-! ## RelevanceSearchEngine — scoring (src/unnamed/part_006)

`float64` arithmetic is modelled exactly over `ℚ`.  The source's `log10` is a
hand-written approximation — repeated division by 10 plus a linear mantissa
term — and is embedded as such: the loop `for x >= 10 { x /= 10; count++ }`
becomes `log10Count` (the number of divisions) and the final `x` is
`x / 10 ^ log10Count x`. -/

/-- The number of times the source's `log10` loop divides its argument by 10
(zero once the value is below 10). -/
def log10Count (x : ℚ) : ℕ :=
  if h : 10 ≤ x then log10Count (x / 10) + 1 else 0
termination_by Nat.floor x
decreasing_by
  have hx0 : (0 : ℚ) ≤ x / 10 := by linarith
  have h2 : ((⌊x / 10⌋₊ : ℚ)) ≤ x / 10 := Nat.floor_le hx0
  have h3 : x - 1 < (⌊x⌋₊ : ℚ) := Nat.sub_one_lt_floor x
  have : ((⌊x / 10⌋₊ : ℚ)) < (⌊x⌋₊ : ℚ) := by linarith
  exact_mod_cast this

/-- The source's `log10`: `0` for non-positive input, otherwise the division
count plus the linear mantissa correction `(x - 1) / 9` (applied when the
remaining `x` exceeds 1). -/
def log10Q (x : ℚ) : ℚ :=
  if x ≤ 0 then 0
  else
    (log10Count x : ℚ) +
      (if 1 < x / 10 ^ log10Count x then (x / 10 ^ log10Count x - 1) / 9 else 0)

/-- `logScale`: clamp at the input bounds, otherwise interpolate linearly in
(the source's) log space. -/
def logScaleQ (value minIn maxIn minOut maxOut : ℚ) : ℚ :=
  if value ≤ minIn then minOut
  else if maxIn ≤ value then maxOut
  else minOut + (log10Q value - log10Q minIn) / (log10Q maxIn - log10Q minIn) * (maxOut - minOut)

/-- The download-count contribution `logScale(float64(mod.Downloads), 1,
10000000, 0, 3)` (added only when `mod.Downloads > 0`). -/
def downloadContribution (d : ℕ) : ℚ :=
  logScaleQ (d : ℚ) 1 10000000 0 3

/-- The scoring-relevant fields of the `Module` struct
(src/registry/types.go; named `RegModule` here because `Module` is taken by
the ambient mathematical library); `publishedAt` is the publication timestamp
measured in days, so that `now - publishedAt` is the source's
`daysSincePublished`. -/
structure RegModule where
  id : String
  nspace : String
  name : String
  provider : String
  description : String
  publishedAt : ℚ
  downloads : ℕ
  verified : Bool
deriving DecidableEq

/-- The relevance score computed by `SearchWithRelevance` for one module
(lines 270–348): name match, description match, namespace and provider
containment, verification bonus, download score, recency bonus. -/
def moduleRelevance (now : ℚ) (query : String) (m : RegModule) : ℚ :=
  let queryLower := toLowerStr query
  let queryParts := fieldsStr queryLower
  let nameLower := toLowerStr m.name
  let descLower := toLowerStr m.description
  (if nameLower = queryLower then 10
   else if containsStr nameLower queryLower then 5
   else if queryParts.all (fun part => containsStr nameLower part) then 3
   else 0) +
  (if containsStr descLower queryLower then 3
   else if queryParts.all (fun part => containsStr descLower part) then 3 / 2
   else 0) +
  (if containsStr (toLowerStr m.nspace) queryLower then 2 else 0) +
  (if containsStr (toLowerStr m.provider) queryLower then 1 else 0) +
  (if m.verified then 2 else 0) +
  (if 0 < m.downloads then downloadContribution m.downloads else 0) +
  (if now - m.publishedAt < 30 then 1
   else if now - m.publishedAt < 90 then 1 / 2
   else 0)

/-- One `ModuleSearchResult`: a module plus its computed relevance. -/
structure ModuleSearchResult where
  module : RegModule
  relevance : ℚ
deriving DecidableEq

/-- The scored (but not yet sorted) result list, in fetch order. -/
def scoreModules (now : ℚ) (query : String) (mods : List RegModule) :
    List ModuleSearchResult :=
  mods.map (fun m => { module := m, relevance := moduleRelevance now query m })

/-- The contract of Go's `sort.Slice` with comparison `less` (standard
library, not part of this repository): the output is a permutation of the
input in which no later element is `less` than an earlier one.  `sort.Slice`
is documented as NOT stable, so nothing more about the order of `less`-ties
is guaranteed. -/
def sortSliceRel {α : Type} (less : α → α → Bool) (input output : List α) : Prop :=
  input.Perm output ∧ output.Pairwise (fun a b => less b a = false)

/-- `SearchWithRelevance` (lines 260–356), relationally: the output is a
`sort.Slice`-sorted copy of the scored fetch-order list, under the source's
comparison `results[i].Relevance > results[j].Relevance`. -/
def searchWithRelevanceRel (now : ℚ) (query : String) (mods : List RegModule)
    (out : List ModuleSearchResult) : Prop :=
  sortSliceRel (fun a b => decide (b.relevance < a.relevance))
    (scoreModules now query mods) out

/-- The ordering the claim asserts, written from the spec's words: insertion
sort by strictly descending relevance in which an earlier-fetched item is
placed before any later-fetched item of equal relevance (a stable descending
sort). -/
def insertByRelevance (a : ModuleSearchResult) :
    List ModuleSearchResult → List ModuleSearchResult
  | [] => [a]
  | b :: t =>
    if b.relevance ≤ a.relevance then a :: b :: t else b :: insertByRelevance a t

/-- Stable sort of a scored list by descending relevance (fetch order on
ties). -/
def stableRankDesc : List ModuleSearchResult → List ModuleSearchResult
  | [] => []
  | h :: t => insertByRelevance h (stableRankDesc t)

/-- Claim C4, as stated, for the module search: the ranked list returned is
the stable descending-relevance ordering of the scored fetch-order list. -/
def claimC4Statement : Prop :=
  ∀ (now : ℚ) (query : String) (mods : List RegModule) (out : List ModuleSearchResult),
    searchWithRelevanceRel now query mods out →
      out = stableRankDesc (scoreModules now query mods)

/-! ## Paginated search traversal (src/registry/policies.go `Search`,
src/registry/providers.go `ListDocsV2`)

Items carried by pages are modelled opaquely (by `ℕ` identifiers): the claims
about the traversal concern only how many pages are fetched and why the loop
stops.  The page fetcher maps a page number to the page the remote returns for
it (the `error`-free executions; an erroring fetch aborts the whole call and
fetches nothing further, which neither loop's claim concerns).  `fuel` is the
number of loop iterations the `pageCount < maxPages` guard still allows, so it
starts at 100. -/

/-- One fetched page: its items and the `Meta.Pagination.NextPage` field
(0 = no further page). -/
structure FetchedPage where
  data : List ℕ
  nextPage : ℕ
deriving DecidableEq

/-- The pagination loop of `PoliciesService.Search` (lines 146–166): fetch,
append the page's items, stop if `NextPage == 0`, else continue at
`NextPage`.  Returns the accumulated items and the list of page numbers
fetched, in order. -/
def policiesSearchLoop (fetch : ℕ → FetchedPage) :
    ℕ → ℕ → List ℕ → List ℕ → List ℕ × List ℕ
  | _, 0, acc, trace => (acc, trace)
  | page, fuel + 1, acc, trace =>
    if (fetch page).nextPage = 0 then
      (acc ++ (fetch page).data, trace ++ [page])
    else
      policiesSearchLoop fetch (fetch page).nextPage fuel
        (acc ++ (fetch page).data) (trace ++ [page])

/-- `PoliciesService.Search` pagination: start at page 1 with the
`maxPages = 100` budget. -/
def policiesSearchPages (fetch : ℕ → FetchedPage) : List ℕ × List ℕ :=
  policiesSearchLoop fetch 1 100 [] []

/-- The pagination loop of `ProvidersService.ListDocsV2` (lines 362–411):
fetch, stop (keeping nothing of the page) if the page has no items, else
append, stop if a specific page was requested (`opts.Page > 0`), stop if
`NextPage == 0`, else continue at `NextPage`. -/
def docsListLoop (fetch : ℕ → FetchedPage) (optsPage : ℕ) :
    ℕ → ℕ → List ℕ → List ℕ → List ℕ × List ℕ
  | _, 0, acc, trace => (acc, trace)
  | page, fuel + 1, acc, trace =>
    if (fetch page).data = [] then (acc, trace ++ [page])
    else if 0 < optsPage then (acc ++ (fetch page).data, trace ++ [page])
    else if (fetch page).nextPage = 0 then (acc ++ (fetch page).data, trace ++ [page])
    else
      docsListLoop fetch optsPage (fetch page).nextPage fuel
        (acc ++ (fetch page).data) (trace ++ [page])

/-- `ListDocsV2` pagination: start at `opts.Page` when positive, else at page
1, with the `maxPages = 100` budget. -/
def docsListPages (fetch : ℕ → FetchedPage) (optsPage : ℕ) : List ℕ × List ℕ :=
  docsListLoop fetch optsPage (if 0 < optsPage then optsPage else 1) 100 [] []

/-- Claim C5's stopping condition, as stated, for a traversal trace: a page
that reports no further page, or returns zero items, is the last page
fetched. -/
def claimC5Stops (fetch : ℕ → FetchedPage) (trace : List ℕ) : Prop :=
  ∀ p ∈ trace.dropLast, (fetch p).data ≠ [] ∧ (fetch p).nextPage ≠ 0

theorem policiesSearchLoop_trace_length (fetch : ℕ → FetchedPage) :
    ∀ (fuel page : ℕ) (acc trace : List ℕ),
      (policiesSearchLoop fetch page fuel acc trace).2.length ≤ trace.length + fuel := by
  intro fuel
  induction fuel with
  | zero => intro page acc trace; simp [policiesSearchLoop]
  | succ f ih =>
    intro page acc trace
    rw [policiesSearchLoop]
    split
    · simp
    · calc (policiesSearchLoop fetch (fetch page).nextPage f
            (acc ++ (fetch page).data) (trace ++ [page])).2.length
          ≤ (trace ++ [page]).length + f := ih _ _ _
        _ = trace.length + (f + 1) := by simp; omega

theorem docsListLoop_trace_length (fetch : ℕ → FetchedPage) (optsPage : ℕ) :
    ∀ (fuel page : ℕ) (acc trace : List ℕ),
      (docsListLoop fetch optsPage page fuel acc trace).2.length ≤ trace.length + fuel := by
  intro fuel
  induction fuel with
  | zero => intro page acc trace; simp [docsListLoop]
  | succ f ih =>
    intro page acc trace
    rw [docsListLoop]
    split
    · simp
    · split
      · simp
      · split
        · simp
        · calc (docsListLoop fetch optsPage (fetch page).nextPage f
                (acc ++ (fetch page).data) (trace ++ [page])).2.length
              ≤ (trace ++ [page]).length + f := ih _ _ _
            _ = trace.length + (f + 1) := by simp; omega

/-- In the policies loop, every page except possibly the last fetched one had
a next page (the loop does NOT stop on an empty page). -/
theorem policiesSearchLoop_dropLast (fetch : ℕ → FetchedPage) :
    ∀ (fuel page : ℕ) (acc trace : List ℕ),
      (∀ p ∈ trace, (fetch p).nextPage ≠ 0) →
      ∀ p ∈ (policiesSearchLoop fetch page fuel acc trace).2.dropLast,
        (fetch p).nextPage ≠ 0 := by
  intro fuel
  induction fuel with
  | zero =>
    intro page acc trace h p hp
    exact h p (List.dropLast_subset _ (by simpa [policiesSearchLoop] using hp))
  | succ f ih =>
    intro page acc trace h p hp
    rw [policiesSearchLoop] at hp
    by_cases hnext : (fetch page).nextPage = 0
    · rw [if_pos hnext] at hp
      simp only [List.dropLast_concat] at hp
      exact h p hp
    · rw [if_neg hnext] at hp
      refine ih _ _ _ ?_ p hp
      intro q hq
      rcases List.mem_append.mp hq with hq1 | hq2
      · exact h q hq1
      · simp only [List.mem_singleton] at hq2
        subst hq2
        exact hnext

/-- In the docs loop, every page except possibly the last fetched one had
items, had a next page, and the call was not a single-page request. -/
theorem docsListLoop_dropLast (fetch : ℕ → FetchedPage) (optsPage : ℕ) :
    ∀ (fuel page : ℕ) (acc trace : List ℕ),
      (∀ p ∈ trace, (fetch p).data ≠ [] ∧ optsPage = 0 ∧ (fetch p).nextPage ≠ 0) →
      ∀ p ∈ (docsListLoop fetch optsPage page fuel acc trace).2.dropLast,
        (fetch p).data ≠ [] ∧ optsPage = 0 ∧ (fetch p).nextPage ≠ 0 := by
  intro fuel
  induction fuel with
  | zero =>
    intro page acc trace h p hp
    exact h p (List.dropLast_subset _ (by simpa [docsListLoop] using hp))
  | succ f ih =>
    intro page acc trace h p hp
    rw [docsListLoop] at hp
    by_cases hdata : (fetch page).data = []
    · rw [if_pos hdata] at hp
      simp only [List.dropLast_concat] at hp
      exact h p hp
    · rw [if_neg hdata] at hp
      by_cases hopts : 0 < optsPage
      · rw [if_pos hopts] at hp
        simp only [List.dropLast_concat] at hp
        exact h p hp
      · rw [if_neg hopts] at hp
        by_cases hnext : (fetch page).nextPage = 0
        · rw [if_pos hnext] at hp
          simp only [List.dropLast_concat] at hp
          exact h p hp
        · rw [if_neg hnext] at hp
          refine ih _ _ _ ?_ p hp
          intro q hq
          rcases List.mem_append.mp hq with hq1 | hq2
          · exact h q hq1
          · simp only [List.mem_singleton] at hq2
            subst hq2
            exact ⟨hdata, by omega, hnext⟩

/-- A remote that answers every request with an empty page that nevertheless
points at page 2. -/
def emptyPagesFetcher : ℕ → FetchedPage :=
  fun _ => { data := [], nextPage := 2 }

/-! ### Bounds for the source's `log10` approximation -/

theorem log10Count_of_lt {x : ℚ} (h : x < 10) : log10Count x = 0 := by
  rw [log10Count]
  exact dif_neg (by linarith)

theorem log10Count_of_ge {x : ℚ} (h : 10 ≤ x) :
    log10Count x = log10Count (x / 10) + 1 := by
  rw [log10Count]
  exact dif_pos h

/-- Loop invariant of the division loop: for `1 ≤ x`, after `log10Count x`
divisions the value lies in `[1, 10)`, and `10 ^ log10Count x ≤ x`. -/
theorem log10Count_bounds (x : ℚ) (hx : 1 ≤ x) :
    (10 : ℚ) ^ log10Count x ≤ x ∧
      1 ≤ x / 10 ^ log10Count x ∧ x / 10 ^ log10Count x < 10 := by
  by_cases h : 10 ≤ x
  · have hx10 : (1 : ℚ) ≤ x / 10 := by linarith
    have ih := log10Count_bounds (x / 10) hx10
    obtain ⟨ih1, ih2, ih3⟩ := ih
    rw [log10Count_of_ge h]
    have hsplit : ∀ c : ℕ, x / 10 ^ (c + 1) = x / 10 / 10 ^ c := by
      intro c
      rw [pow_succ]
      ring
    refine ⟨?_, ?_, ?_⟩
    · rw [pow_succ]
      calc (10 : ℚ) ^ log10Count (x / 10) * 10 ≤ x / 10 * 10 := by linarith
        _ = x := by ring
    · rw [hsplit]; exact ih2
    · rw [hsplit]; exact ih3
  · have h10 : x < 10 := lt_of_not_ge h
    rw [log10Count_of_lt h10]
    simp only [pow_zero, div_one]
    exact ⟨hx, hx, h10⟩
termination_by Nat.floor x
decreasing_by
  have hx0 : (0 : ℚ) ≤ x / 10 := by linarith
  have h2 : ((⌊x / 10⌋₊ : ℚ)) ≤ x / 10 := Nat.floor_le hx0
  have h3 : x - 1 < (⌊x⌋₊ : ℚ) := Nat.sub_one_lt_floor x
  have : ((⌊x / 10⌋₊ : ℚ)) < (⌊x⌋₊ : ℚ) := by linarith
  exact_mod_cast this

/-- For `1 ≤ x`, the source's `log10` is non-negative, and below `k + 1` where
`k` is the division count. -/
theorem log10Q_bounds {x : ℚ} (hx : 1 ≤ x) :
    0 ≤ log10Q x ∧ log10Q x < (log10Count x : ℚ) + 1 := by
  obtain ⟨h1, h2, h3⟩ := log10Count_bounds x hx
  unfold log10Q
  rw [if_neg (by linarith)]
  constructor
  · have : (0 : ℚ) ≤ (log10Count x : ℚ) := by positivity
    split
    · rename_i hy
      have : (0 : ℚ) ≤ (x / 10 ^ log10Count x - 1) / 9 := by
        apply div_nonneg <;> linarith
      linarith
    · linarith
  · split
    · rename_i hy
      have : (x / 10 ^ log10Count x - 1) / 9 < 1 := by
        rw [div_lt_one (by norm_num)]
        linarith
      linarith
    · linarith

/-- For `1 ≤ x < 10 ^ n` the division count stays below `n`. -/
theorem log10Count_lt {x : ℚ} {n : ℕ} (hx : 1 ≤ x) (hxn : x < 10 ^ n) :
    log10Count x < n := by
  obtain ⟨h1, _, _⟩ := log10Count_bounds x hx
  have hpow : (10 : ℚ) ^ log10Count x < 10 ^ n := lt_of_le_of_lt h1 hxn
  exact (pow_lt_pow_iff_right₀ (by norm_num : (1:ℚ) < 10)).mp hpow

/-! ## Helper lemmas for the retry loop -/

theorem attemptsFrom_pos (ctxDone : Bool) (scenario : ℕ → AttemptOutcome)
    (i remain : ℕ) : 1 ≤ attemptsFrom ctxDone scenario i remain := by
  cases remain with
  | zero => simp [attemptsFrom]
  | succ r =>
    rw [attemptsFrom]
    split <;> omega

theorem attemptsFrom_le_of_fatal (ctxDone : Bool) (scenario : ℕ → AttemptOutcome)
    {i : ℕ} (hfatal : checkRetry ctxDone (scenario i) = false) :
    ∀ (remain j : ℕ), j ≤ i → attemptsFrom ctxDone scenario j remain ≤ i - j + 1 := by
  intro remain
  induction remain with
  | zero => intro j hj; simp [attemptsFrom]
  | succ r ih =>
    intro j hj
    rw [attemptsFrom]
    by_cases hcr : checkRetry ctxDone (scenario j) = true
    · have hji : j ≠ i := by
        intro hji
        rw [hji, hfatal] at hcr
        exact Bool.false_ne_true hcr
      have hj2 : j + 1 ≤ i := by omega
      have := ih (j + 1) hj2
      rw [if_pos hcr]
      omega
    · rw [if_neg hcr]
      omega

/-! ## Claim theorems -/

/-- **C1**, as stated, is false on the code: `Client.request` acquires from
the rate limiter once per call, so in a call whose first attempt gets a 500
and whose retry succeeds, two HTTP attempts share a single `Wait`
acquisition. -/
theorem c1_counterexample : ¬ claimC1Statement := by
  intro h
  have h2 := (h false false oneServerErrorScenario 3).1
  have ha : countAttempts (clientRequest false false oneServerErrorScenario 3).1 = 2 := by
    decide
  have hw : countWaits (clientRequest false false oneServerErrorScenario 3).1 = 1 := by
    decide
  omega

/-- **C1** (amended): each `Client.request` call performs exactly one
`RateLimiter.Wait` acquisition, as its first event, before any HTTP attempt;
retries within the call are not individually rate-limited.  If that `Wait` is
cancelled the call fails immediately with the cancellation error and performs
no attempt; otherwise at least one attempt follows the single acquisition. -/
theorem c1_request_rate_limit :
    ∀ (cancelled ctxDone : Bool) (scenario : ℕ → AttemptOutcome) (retryMax : ℕ),
      (cancelled = true →
        clientRequest cancelled ctxDone scenario retryMax = ([], true)) ∧
      (cancelled = false →
        countWaits (clientRequest cancelled ctxDone scenario retryMax).1 = 1 ∧
        (clientRequest cancelled ctxDone scenario retryMax).1.head? =
          some ReqEvent.waitAcquired ∧
        1 ≤ countAttempts (clientRequest cancelled ctxDone scenario retryMax).1 ∧
        (clientRequest cancelled ctxDone scenario retryMax).2 = false) := by
  intro cancelled ctxDone scenario retryMax
  constructor
  · intro hc
    subst hc
    rfl
  · intro hc
    subst hc
    have hnowait :
        ((List.range (doAttempts ctxDone scenario retryMax)).map
          (fun k => ReqEvent.httpAttempt (k + 1))).count ReqEvent.waitAcquired = 0 := by
      rw [List.count_eq_zero]
      simp [List.mem_map]
    refine ⟨?_, ?_, ?_, ?_⟩
    · simp only [clientRequest, if_neg Bool.false_ne_true, countWaits,
        List.count_cons, hnowait]
      rfl
    · rfl
    · simp only [clientRequest, if_neg Bool.false_ne_true, countAttempts,
        List.countP_cons]
      have : ((List.range (doAttempts ctxDone scenario retryMax)).map
          (fun k => ReqEvent.httpAttempt (k + 1))).countP
            (fun e => match e with | .httpAttempt _ => true | _ => false) =
          doAttempts ctxDone scenario retryMax := by
        rw [List.countP_map]
        simp [Function.comp_def]
      rw [this]
      have := attemptsFrom_pos ctxDone scenario 0 retryMax
      unfold doAttempts
      omega
    · rfl

/-- **C1** witness. -/
theorem c1_witness :
    clientRequest true false oneServerErrorScenario 3 = ([], true) ∧
    countWaits (clientRequest false false oneServerErrorScenario 3).1 = 1 :=
  ⟨(c1_request_rate_limit true false oneServerErrorScenario 3).1 rfl,
   ((c1_request_rate_limit false false oneServerErrorScenario 3).2 rfl).1⟩

/-- **C2**: for every single-attempt outcome with a genuine HTTP status (Go's
HTTP client only hands back responses with a three-digit status, so
`100 ≤ code`), the outcome is classified retryable iff a network-level error
occurred, or the status is 429, or the status is ≥ 500; and the retry loop
performs no further attempt after a non-retryable outcome. -/
theorem c2_retry_classification :
    (∀ (ctxDone : Bool) (code : ℕ), 100 ≤ code →
      (checkRetry ctxDone (.status code) = true ↔ (code = 429 ∨ 500 ≤ code))) ∧
    (∀ ctxDone : Bool, checkRetry ctxDone .netErr = true) ∧
    (∀ (ctxDone : Bool) (scenario : ℕ → AttemptOutcome) (retryMax i : ℕ),
      checkRetry ctxDone (scenario i) = false →
      doAttempts ctxDone scenario retryMax ≤ i + 1) := by
  refine ⟨?_, ?_, ?_⟩
  · intro ctxDone code hcode
    unfold checkRetry defaultRetryPolicyStatus baseRetryPolicyStatus
    split_ifs <;> first
      | (simp_all; omega)
      | simp_all
  · intro ctxDone
    rfl
  · intro ctxDone scenario retryMax i hfatal
    have := attemptsFrom_le_of_fatal ctxDone scenario hfatal retryMax 0 (by omega)
    unfold doAttempts
    omega

/-- **C2** witness. -/
theorem c2_witness :
    (checkRetry false (.status 404) = true ↔ (404 = 429 ∨ 500 ≤ 404)) ∧
    doAttempts false (fun _ => .status 404) 5 ≤ 0 + 1 :=
  ⟨c2_retry_classification.1 false 404 (by norm_num),
   c2_retry_classification.2.2 false (fun _ => .status 404) 5 0 (by decide)⟩

/-- **C3**: `CompareVersions` orders major, minor, patch numerically
(`"1.2.3" < "1.10.0"`), makes a release beat its prereleases, compares
prerelease tags lexically, never lets build metadata affect the result (its
comparison key omits the build group, as witnessed both structurally and on
examples), and is reflexive on equal versions.  The last conjunct states that
the source's comparison coincides, on every pair of strings, with the
ordering written from the spec's words. -/
theorem c3_compare_versions :
    CompareVersions "1.2.3" "1.10.0" = -1 ∧
    CompareVersions "1.0.0" "1.0.0-alpha" = 1 ∧
    CompareVersions "1.0.0" "1.0.0" = 0 ∧
    CompareVersions "1.0.0+build1" "1.0.0+build2" = 0 ∧
    CompareVersions "1.2.3+zzz" "1.2.4+aaa" = -1 ∧
    specVersionKey "1.2.3-rc.1+build99" = specVersionKey "1.2.3-rc.1" ∧
    (∀ a b : String, CompareVersions a b = specCompare a b) :=
  ⟨by decide, by decide, by decide, by decide, by decide, by decide,
   compareVersions_eq_specCompare⟩

/-- **C8**: `ValidateVersion` accepts the two sentinels, plain and
`v`-prefixed semver, and prerelease forms; it rejects too few or too many
components, non-numeric strings, and a dangling prerelease dash. -/
theorem c8_validate_version :
    ValidateProviderVersion "" = true ∧
    ValidateProviderVersion "latest" = true ∧
    ValidateProviderVersion "1.0.0" = true ∧
    ValidateProviderVersion "v1.0.0" = true ∧
    ValidateProviderVersion "1.0.0-alpha" = true ∧
    ValidateProviderVersion "1.0.0-beta.1" = true ∧
    ValidateProviderVersion "1" = false ∧
    ValidateProviderVersion "1.0" = false ∧
    ValidateProviderVersion "1.0.0.0" = false ∧
    ValidateProviderVersion "abc" = false ∧
    ValidateProviderVersion "1.0.0-" = false := by
  decide

/-- **C9**, as stated, is false on the code: `ParseModuleID` trims each
segment with `strings.TrimSpace` before validating, so
`" ns/name/prov/1.0.0"` is accepted although its first raw segment `" ns"`
fails the namespace grammar. -/
theorem c9_counterexample :
    ¬ (∀ moduleID : String,
        (ParseModuleID moduleID).isOk = moduleIDClaimCriterion moduleID) := by
  intro h
  have h2 := h " ns/name/prov/1.0.0"
  have ha : (ParseModuleID " ns/name/prov/1.0.0").isOk = true := by decide
  have hb : moduleIDClaimCriterion " ns/name/prov/1.0.0" = false := by decide
  rw [ha, hb] at h2
  exact absurd h2 (by decide)

/-- **C9** (amended): `ParseModuleID` succeeds exactly when its input splits
into four slash-delimited segments that, after trimming surrounding
whitespace, are non-empty and pass their per-segment grammars
(namespace/name: `validNamePattern`; provider: `validProviderPattern`;
version: `ValidateProviderVersion`, whose grammars imply non-emptiness except
for the version sentinels).  In particular `"ns/name/prov/1.0.0"` parses to
`(ns, name, prov, 1.0.0)` with no empty field, `"ns/name/prov"` fails with
the segment-count cause, and `"na@me/name/prov/1.0.0"` fails with the
namespace cause. -/
theorem c9_parse_module_id :
    (∀ moduleID : String,
      (ParseModuleID moduleID).isOk = moduleIDTrimmedCriterion moduleID) ∧
    ParseModuleID "ns/name/prov/1.0.0" = .ok ("ns", "name", "prov", "1.0.0") ∧
    ParseModuleID "ns/name/prov" = .error .wrongSegmentCount ∧
    ParseModuleID "na@me/name/prov/1.0.0" = .error .invalidNamespace :=
  ⟨parseModuleID_isOk_eq, by decide, by decide, by decide⟩

/-- A version string that does not match the semver pattern (after the `v`
normalization) contributes the default key: numbers `(0, 0, 0)` and an empty
prerelease. -/
theorem key_of_nomatch {s : String}
    (h : semverFindSubmatch (NormalizeVersion s) = none) :
    parseSemanticVersion (NormalizeVersion s) = (0, 0, 0) ∧
      extractPreRelease (NormalizeVersion s) = "" := by
  unfold parseSemanticVersion extractPreRelease
  rw [h]
  exact ⟨rfl, rfl⟩

theorem specCompareInt_zero_right (a : ℕ) :
    specCompareInt a 0 = if 0 < a then 1 else 0 := by
  unfold specCompareInt
  split_ifs <;> omega

theorem specCompareInt_zero_left (a : ℕ) :
    specCompareInt 0 a = if 0 < a then -1 else 0 := by
  unfold specCompareInt
  split_ifs <;> omega

/-- **C10**, as stated, is false on the code: `CompareVersions` first strips
one leading `'v'` (`NormalizeVersion`) and the semver pattern's `^v?` then
strips another, so `"vv1.2.3"` — rejected by the grammar and by
`ValidateProviderVersion` — is compared as `1.2.3`, not as `0.0.0`: it
compares as greater than the (equally non-matching) `"abc"` instead of equal,
and sorts above the valid version `"0.0.1"` instead of below it. -/
theorem c10_counterexample :
    ValidateProviderVersion "vv1.2.3" = false ∧
    semverFindSubmatch "vv1.2.3" = none ∧
    parseSemanticVersion (NormalizeVersion "vv1.2.3") = (1, 2, 3) ∧
    CompareVersions "vv1.2.3" "abc" = 1 ∧
    CompareVersions "vv1.2.3" "0.0.1" = 1 := by
  decide

/-- **C10** (amended): `CompareVersions` is total over arbitrary strings, and
every string whose `v`-normalized form fails the semver pattern — the
sentinels `""` and `"latest"` included — is treated as `0.0.0` with empty
prerelease; hence `CompareVersions "latest" "0.0.1" = -1`, any two such
strings compare equal, and any such string sorts strictly below every version
greater than `"0.0.0"`.  (The normalization caveat is forced by the code:
strings carrying a doubled `v` prefix fail the grammar yet are compared as if
singly prefixed, because the normalization and the pattern's optional `v`
each strip one.) -/
theorem c10_compare_total :
    (∀ s : String, semverFindSubmatch (NormalizeVersion s) = none →
      parseSemanticVersion (NormalizeVersion s) = (0, 0, 0) ∧
        extractPreRelease (NormalizeVersion s) = "") ∧
    CompareVersions "latest" "0.0.1" = -1 ∧
    (∀ s t : String, semverFindSubmatch (NormalizeVersion s) = none →
      semverFindSubmatch (NormalizeVersion t) = none →
      CompareVersions s t = 0) ∧
    (∀ s v : String, semverFindSubmatch (NormalizeVersion s) = none →
      CompareVersions v "0.0.0" = 1 → CompareVersions s v = -1) := by
  refine ⟨fun s h => key_of_nomatch h, by decide, ?_, ?_⟩
  · intro s t hs ht
    rw [compareVersions_eq_specCompare]
    unfold specCompare specVersionKey
    rw [(key_of_nomatch hs).1, (key_of_nomatch hs).2,
      (key_of_nomatch ht).1, (key_of_nomatch ht).2]
    simp [specCompareInt_self, specCompareLex, lexLt]
  · intro s v hs hv
    rw [compareVersions_eq_specCompare] at hv ⊢
    unfold specCompare specVersionKey at hv ⊢
    rw [(key_of_nomatch hs).1, (key_of_nomatch hs).2] at *
    have h000 : parseSemanticVersion (NormalizeVersion "0.0.0") = (0, 0, 0) := by
      decide
    have hpre0 : extractPreRelease (NormalizeVersion "0.0.0") = "" := by decide
    rw [h000, hpre0] at hv
    dsimp only at hv ⊢
    generalize hA : (parseSemanticVersion (NormalizeVersion v)).1 = a at hv ⊢
    generalize hB : (parseSemanticVersion (NormalizeVersion v)).2.1 = b at hv ⊢
    generalize hC : (parseSemanticVersion (NormalizeVersion v)).2.2 = c at hv ⊢
    generalize hP : extractPreRelease (NormalizeVersion v) = pre at hv ⊢
    simp only [specCompareInt_zero_right, specCompareInt_zero_left] at hv ⊢
    norm_num at hv ⊢
    by_cases ha : a = 0
    · by_cases hb : b = 0
      · by_cases hc : c = 0
        · subst ha; subst hb; subst hc
          norm_num at hv ⊢
          by_cases hpre : pre = ""
          · rw [hpre] at hv
            simp [specCompareLex, lexLt] at hv
          · simp [hpre] at hv
        · have hc2 : 0 < c := Nat.pos_of_ne_zero hc
          simp [ha, hb, hc, hc2]
      · have hb2 : 0 < b := Nat.pos_of_ne_zero hb
        simp [ha, hb, hb2]
    · have ha2 : 0 < a := Nat.pos_of_ne_zero ha
      simp [ha, ha2]

/-- **C10** witness. -/
theorem c10_witness :
    CompareVersions "latest" "not-a-version" = 0 ∧
    CompareVersions "latest" "1.2.3" = -1 :=
  ⟨c10_compare_total.2.2.1 "latest" "not-a-version" (by decide) (by decide),
   c10_compare_total.2.2.2 "latest" "1.2.3" (by decide) (by decide)⟩

/-! ### C4: ranking order -/

/-- A module named exactly like the query; relevance 10 for query `"vpc"`. -/
def vpcModuleA : RegModule :=
  { id := "a", nspace := "ns", name := "vpc", provider := "aws",
    description := "", publishedAt := 0, downloads := 0, verified := false }

/-- A second module identical to `vpcModuleA` in every scoring field, with a
different identifier, hence the same relevance. -/
def vpcModuleB : RegModule :=
  { id := "b", nspace := "ns", name := "vpc", provider := "aws",
    description := "", publishedAt := 0, downloads := 0, verified := false }

theorem vpcModuleA_relevance : moduleRelevance 1000 "vpc" vpcModuleA = 10 := by
  have h1 : containsStr (toLowerStr "") (toLowerStr "vpc") = false := by decide
  have h2 : containsStr (toLowerStr "ns") (toLowerStr "vpc") = false := by decide
  have h3 : containsStr (toLowerStr "aws") (toLowerStr "vpc") = false := by decide
  norm_num [moduleRelevance, vpcModuleA, h1, h2, h3]
  decide

theorem vpcModuleB_relevance : moduleRelevance 1000 "vpc" vpcModuleB = 10 := by
  have h1 : containsStr (toLowerStr "") (toLowerStr "vpc") = false := by decide
  have h2 : containsStr (toLowerStr "ns") (toLowerStr "vpc") = false := by decide
  have h3 : containsStr (toLowerStr "aws") (toLowerStr "vpc") = false := by decide
  norm_num [moduleRelevance, vpcModuleB, h1, h2, h3]
  decide

theorem vpcScore_eq : scoreModules 1000 "vpc" [vpcModuleA, vpcModuleB] =
    [{ module := vpcModuleA, relevance := 10 },
     { module := vpcModuleB, relevance := 10 }] := by
  simp [scoreModules, vpcModuleA_relevance, vpcModuleB_relevance]

/-- **C4**, as stated, is false on the code: all three ranked searches sort
with Go's `sort.Slice`, which is not a stable sort, so the order among items
of equal relevance is not the fetch order.  Concretely, for two
equally-scored modules fetched as `[A, B]`, the output `[B, A]` satisfies
everything `sort.Slice` guarantees, yet differs from the claimed stable
ordering. -/
theorem c4_counterexample : ¬ claimC4Statement := by
  intro h
  have hrel : searchWithRelevanceRel 1000 "vpc" [vpcModuleA, vpcModuleB]
      [{ module := vpcModuleB, relevance := 10 },
       { module := vpcModuleA, relevance := 10 }] := by
    constructor
    · rw [vpcScore_eq]
      exact List.Perm.swap _ _ _
    · refine List.Pairwise.cons ?_ (List.Pairwise.cons (by simp) .nil)
      intro x hx
      simp only [List.mem_singleton] at hx
      subst hx
      simp only [decide_eq_false_iff_not]
      norm_num
  have heq := h 1000 "vpc" [vpcModuleA, vpcModuleB] _ hrel
  rw [vpcScore_eq] at heq
  have hstable : stableRankDesc
      [{ module := vpcModuleA, relevance := 10 },
       { module := vpcModuleB, relevance := 10 }] =
      [{ module := vpcModuleA, relevance := 10 },
       { module := vpcModuleB, relevance := 10 }] := by
    norm_num [stableRankDesc, insertByRelevance]
  rw [hstable] at heq
  have : vpcModuleB = vpcModuleA := by
    have := List.head_eq_of_cons_eq heq
    simpa [ModuleSearchResult.mk.injEq] using this
  simp [vpcModuleA, vpcModuleB] at this

/-- **C4** (amended): every list produced by the ranked module search is a
permutation of the scored fetch-order list, sorted by non-increasing
relevance.  The tie-break order among equal-relevance items is NOT the fetch
order (the sort used, `sort.Slice`, is unstable), so only the descending
relevance order — not a stable one — is guaranteed. -/
theorem c4_ranked_order :
    ∀ (now : ℚ) (query : String) (mods : List RegModule)
      (out : List ModuleSearchResult),
      searchWithRelevanceRel now query mods out →
        out.Perm (scoreModules now query mods) ∧
        out.Pairwise (fun a b => b.relevance ≤ a.relevance) := by
  intro now query mods out h
  obtain ⟨hperm, hsorted⟩ := h
  refine ⟨hperm.symm, hsorted.imp ?_⟩
  intro a b hab
  have := of_decide_eq_false hab
  exact le_of_not_lt this

/-- **C4** witness. -/
theorem c4_witness :
    ([{ module := vpcModuleA, relevance := 10 }] : List ModuleSearchResult).Perm
      (scoreModules 1000 "vpc" [vpcModuleA]) ∧
    ([{ module := vpcModuleA, relevance := 10 }] :
      List ModuleSearchResult).Pairwise (fun a b => b.relevance ≤ a.relevance) :=
  c4_ranked_order 1000 "vpc" [vpcModuleA]
    [{ module := vpcModuleA, relevance := 10 }]
    ⟨by simp [scoreModules, vpcModuleA_relevance], by simp⟩

/-- A remote whose page `p` has one item, pointing from page 1 to page 2 and
stopping there. -/
def twoPagesFetcher : ℕ → FetchedPage :=
  fun p => { data := [p], nextPage := if p = 1 then 2 else 0 }

/-- **C5**, as stated, is false on the code: the policies traversal does not
stop on a page with zero items — against a remote that always answers with an
empty page pointing at page 2, it fetches 100 pages (page 1 is fetched, comes
back empty, and is not the last page fetched). -/
theorem c5_counterexample :
    ¬ (∀ fetch : ℕ → FetchedPage,
        claimC5Stops fetch (policiesSearchPages fetch).2) := by
  intro h
  have h1 : (1 : ℕ) ∈ (policiesSearchPages emptyPagesFetcher).2.dropLast := by
    decide
  exact (h emptyPagesFetcher 1 h1).1 rfl

/-- **C5** (amended): both paginated traversals fetch pages sequentially and
never fetch more than 100 pages.  The policies search stops exactly when a
page reports no further page (or on the 100-page cap) — an empty page with a
next-page pointer does NOT stop it; the provider-docs listing additionally
stops on a page with zero items, and after the first page when a specific
page was requested. -/
theorem c5_pagination_cap :
    (∀ fetch : ℕ → FetchedPage,
      (policiesSearchPages fetch).2.length ≤ 100 ∧
      ∀ p ∈ (policiesSearchPages fetch).2.dropLast, (fetch p).nextPage ≠ 0) ∧
    (∀ (fetch : ℕ → FetchedPage) (optsPage : ℕ),
      (docsListPages fetch optsPage).2.length ≤ 100 ∧
      ∀ p ∈ (docsListPages fetch optsPage).2.dropLast,
        (fetch p).data ≠ [] ∧ optsPage = 0 ∧ (fetch p).nextPage ≠ 0) := by
  constructor
  · intro fetch
    refine ⟨?_, ?_⟩
    · simpa using policiesSearchLoop_trace_length fetch 100 1 [] []
    · exact policiesSearchLoop_dropLast fetch 100 1 [] [] (by simp)
  · intro fetch optsPage
    refine ⟨?_, ?_⟩
    · simpa using docsListLoop_trace_length fetch optsPage 100 _ [] []
    · exact docsListLoop_dropLast fetch optsPage 100 _ [] [] (by simp)

/-- **C5** witness. -/
theorem c5_witness :
    (policiesSearchPages twoPagesFetcher).2.length ≤ 100 ∧
    (twoPagesFetcher 1).nextPage ≠ 0 :=
  ⟨(c5_pagination_cap.1 twoPagesFetcher).1,
   (c5_pagination_cap.1 twoPagesFetcher).2 1 (by decide)⟩

/-- **C6**, as stated, is false on the code: `NewRateLimiter` copies its
`maxRequests` argument into `tokens` unchecked, so a limiter constructed with
a negative capacity starts (before any operation) in a state with
`tokens = -1 < 0`. -/
theorem c6_counterexample :
    ¬ TokenInvariant (runLimiterOps (NewRateLimiter (-1) 60 0) []) := by
  intro h
  have h1 := h.1
  rw [show (runLimiterOps (NewRateLimiter (-1) 60 0) []).tokens = -1 from rfl] at h1
  omega

/-- **C6** (amended): for every rate limiter constructed by `NewRateLimiter`
with a non-negative `maxRequests` — the client constructor validates that the
configured rate is positive — and every finite sequence of `TryAcquire`,
`Wait`, `Reset` and `TokensRemaining` operations at arbitrary timestamps,
every reachable bucket state satisfies `0 ≤ tokens ≤ maxTokens`. -/
theorem c6_token_invariant :
    ∀ (maxRequests period now : ℤ) (ops : List LimiterOp),
      0 ≤ maxRequests →
      TokenInvariant (runLimiterOps (NewRateLimiter maxRequests period now) ops) := by
  intro maxRequests period now ops h
  exact runLimiterOps_invariant ⟨h, le_refl _⟩ ops

/-- **C6** witness. -/
theorem c6_witness :
    TokenInvariant (runLimiterOps (NewRateLimiter 2 60 0)
      [LimiterOp.tryAcq 5, LimiterOp.wait [10, 20], LimiterOp.reset 30,
       LimiterOp.remaining 40, LimiterOp.tryAcq 45]) :=
  c6_token_invariant 2 60 0 _ (by norm_num)

/-! ### C7: the download-count contribution -/

theorem log10Count_ten_pow (n : ℕ) : log10Count ((10 : ℚ) ^ n) = n := by
  induction n with
  | zero => simpa using log10Count_of_lt (by norm_num)
  | succ k ih =>
    have h10 : (10 : ℚ) ≤ 10 ^ (k + 1) := by
      calc (10 : ℚ) = 10 ^ (1 : ℕ) := by norm_num
        _ ≤ 10 ^ (k + 1) := by
          apply pow_le_pow_right₀ (by norm_num)
          omega
    rw [log10Count_of_ge h10]
    have hdiv : (10 : ℚ) ^ (k + 1) / 10 = 10 ^ k := by
      rw [pow_succ]
      field_simp
    rw [hdiv, ih]

theorem log10Count_ten7 : log10Count (10000000 : ℚ) = 7 := by
  rw [show (10000000 : ℚ) = 10 ^ (7 : ℕ) by norm_num]
  exact log10Count_ten_pow 7

theorem log10Q_one : log10Q 1 = 0 := by
  rw [log10Q, if_neg (by norm_num), log10Count_of_lt (by norm_num)]
  norm_num

theorem log10Q_ten7 : log10Q 10000000 = 7 := by
  rw [log10Q, if_neg (by norm_num), log10Count_ten7]
  norm_num

theorem log10Q_five : log10Q 5 = 4 / 9 := by
  rw [log10Q, if_neg (by norm_num), log10Count_of_lt (by norm_num)]
  norm_num

/-- **C7**, as stated, is false on the code: the repository's `log10` is a
piecewise-linear approximation of the base-10 logarithm (its own comment says
"In production, use math.Log10"), so the contribution for `d = 5` is
`3 · ((5−1)/9) / 7 = 4/21 ≈ 0.190`, not the `3 · log10(5)/7 ≈ 0.300` that the
claimed formula yields with the true logarithm. -/
theorem c7_counterexample :
    downloadContribution 5 = 4 / 21 ∧
    3 * (Real.logb 10 5 - Real.logb 10 1) /
        (Real.logb 10 10000000 - Real.logb 10 1) ≠ ((4 : ℝ) / 21) := by
  constructor
  · rw [downloadContribution, logScaleQ, if_neg (by norm_num),
      if_neg (by norm_num)]
    rw [show ((5 : ℕ) : ℚ) = 5 by norm_num, log10Q_five, log10Q_one, log10Q_ten7]
    norm_num
  · have hlog10pos : 0 < Real.log 10 := Real.log_pos (by norm_num)
    have hlogb1 : Real.logb 10 1 = 0 := Real.logb_one
    have hlogb7 : Real.logb 10 10000000 = 7 := by
      rw [show (10000000 : ℝ) = 10 ^ (7 : ℕ) by norm_num]
      unfold Real.logb
      rw [Real.log_pow]
      field_simp
    rw [hlogb1, hlogb7]
    intro h
    have hlogb5 : Real.logb 10 5 = 4 / 9 := by
      field_simp at h
      linarith
    unfold Real.logb at hlogb5
    have h9 : 9 * Real.log 5 = 4 * Real.log 10 := by
      field_simp at hlogb5
      linarith
    have h59 : Real.log ((5 : ℝ) ^ (9 : ℕ)) = Real.log ((10 : ℝ) ^ (4 : ℕ)) := by
      rw [Real.log_pow, Real.log_pow]
      push_cast
      linarith
    have hpow : ((5 : ℝ) ^ (9 : ℕ)) = ((10 : ℝ) ^ (4 : ℕ)) := by
      have e5 : ((5 : ℝ) ^ (9 : ℕ)) = Real.exp (Real.log ((5 : ℝ) ^ (9 : ℕ))) :=
        (Real.exp_log (by positivity)).symm
      have e10 : ((10 : ℝ) ^ (4 : ℕ)) = Real.exp (Real.log ((10 : ℝ) ^ (4 : ℕ))) :=
        (Real.exp_log (by positivity)).symm
      rw [e5, e10, h59]
    norm_num at hpow

/-- **C7** (amended): for every download count `d > 0` the contribution added
to the relevance score equals
`3 × (log10(d) − log10(1)) / (log10(10,000,000) − log10(1))` where `log10`
is the repository's piecewise-linear approximation (`⌊log10 d⌋ plus
(mantissa − 1)/9`, not the true base-10 logarithm), clamped to `[0, 3]`: it
is `0` for `d ≤ 1`, `3` for `d ≥ 10,000,000`, and strictly between
otherwise. -/
theorem c7_download_contribution :
    ∀ d : ℕ, 0 < d →
      downloadContribution d =
        (if (d : ℚ) ≤ 1 then 0
         else if (10000000 : ℚ) ≤ (d : ℚ) then 3
         else 3 * (log10Q d - log10Q 1) / (log10Q 10000000 - log10Q 1)) ∧
      0 ≤ downloadContribution d ∧ downloadContribution d ≤ 3 := by
  intro d hd
  have hshape : downloadContribution d =
      (if (d : ℚ) ≤ 1 then 0
       else if (10000000 : ℚ) ≤ (d : ℚ) then 3
       else 3 * (log10Q d - log10Q 1) / (log10Q 10000000 - log10Q 1)) := by
    rw [downloadContribution, logScaleQ]
    split_ifs
    · rfl
    · rfl
    · rw [log10Q_one, log10Q_ten7]
      ring
  refine ⟨hshape, ?_⟩
  rw [hshape]
  split_ifs with h1 h2
  · norm_num
  · norm_num
  · rw [log10Q_one, log10Q_ten7]
    have hd1 : (1 : ℚ) < (d : ℚ) := lt_of_not_ge h1
    have hd7 : (d : ℚ) < 10000000 := lt_of_not_ge h2
    obtain ⟨hb0, hb1⟩ := log10Q_bounds (le_of_lt hd1)
    have hcount : log10Count (d : ℚ) < 7 := by
      apply log10Count_lt (le_of_lt hd1)
      rw [show ((10 : ℚ) ^ (7 : ℕ)) = 10000000 by norm_num]
      exact hd7
    have hcount7 : (log10Count (d : ℚ) : ℚ) + 1 ≤ 7 := by
      have : (log10Count (d : ℚ) : ℚ) ≤ 6 := by exact_mod_cast Nat.lt_succ_iff.mp hcount
      linarith
    have hlt7 : log10Q (d : ℚ) ≤ 7 := le_of_lt (lt_of_lt_of_le hb1 hcount7)
    constructor
    · have := div_nonneg hb0 (by norm_num : (0 : ℚ) ≤ 7)
      nlinarith
    · nlinarith


/-- **C7** witness. -/
theorem c7_witness :
    0 ≤ downloadContribution 42 ∧ downloadContribution 42 ≤ 3 :=
  (c7_download_contribution 42 (by norm_num)).2
